import Mathlib

/-!
Verification development for the subtitle timing generator in
src/utils/srtGenerator.ts.

Modelling choices of the shallow embedding:
* JavaScript strings are modelled as List Char (the inputs of interest are
  BMP text, where one UTF-16 code unit is one character).
* JavaScript numbers are modelled as exact rationals in the plain
  definitions, which is adequate for the structural and algebraic
  properties stated about them; the definitions suffixed with D refine
  this by rounding the exact result of every arithmetic operator to the
  nearest IEEE-754 binary64 value (the function fl below), which is how
  the engine executes, and are used where that rounding is observable in
  the formatted output.
* The regular-expression splits used by the source are modelled by
  explicit left-to-right maximal-munch scanners over the character list,
  reproducing the semantics of String.prototype.split with the concrete
  patterns of the source.
-/

/-- Character class of the JavaScript regular-expression whitespace \s
(also the class stripped by String.prototype.trim). -/
def isWSChar (c : Char) : Bool :=
  c == ' ' || c == '\t' || c == '\n' || c == '\r' ||
  c.toNat == 0xb || c.toNat == 0xc || c.toNat == 0xa0 || c.toNat == 0x1680 ||
  (0x2000 ≤ c.toNat && c.toNat ≤ 0x200a) ||
  c.toNat == 0x2028 || c.toNat == 0x2029 || c.toNat == 0x202f ||
  c.toNat == 0x205f || c.toNat == 0x3000 || c.toNat == 0xfeff

/-- Character class of the bracket expression in the source patterns:
a sentence-terminal punctuation mark, one of period, exclamation or
question mark. -/
def isTermPunct (c : Char) : Bool := c == '.' || c == '!' || c == '?'

/-- Model of String.prototype.trim: strip whitespace from both ends. -/
def trimChars (s : List Char) : List Char :=
  ((s.dropWhile (fun c => isWSChar c)).reverse.dropWhile (fun c => isWSChar c)).reverse

/-- Scanner state machine for script.split with the capturing pattern
of one or more terminal punctuation marks followed by one or more
whitespace characters (line 28 of the source).  The accumulators tok,
pun and ws are kept reversed; pun holds a pending punctuation run and
ws a pending whitespace run of a separator candidate. -/
def goSent : List Char → List Char → List Char → List Char → List (List Char)
  | [], tok, pun, ws =>
    if ws.isEmpty then
      if pun.isEmpty then [tok.reverse]
      else [(pun ++ tok).reverse]
    else [tok.reverse, (ws ++ pun).reverse, []]
  | c :: rest, tok, pun, ws =>
    if ws.isEmpty then
      if pun.isEmpty then
        if isTermPunct c then goSent rest tok [c] []
        else goSent rest (c :: tok) [] []
      else
        if isTermPunct c then goSent rest tok (c :: pun) []
        else if isWSChar c then goSent rest tok pun [c]
        else goSent rest (c :: (pun ++ tok)) [] []
    else
      if isWSChar c then goSent rest tok pun (c :: ws)
      else
        if isTermPunct c then
          tok.reverse :: (ws ++ pun).reverse :: goSent rest [] [c] []
        else
          tok.reverse :: (ws ++ pun).reverse :: goSent rest [c] [] []

/-- Model of script.split on the capturing sentence-boundary pattern:
the result alternates text fragments and captured separators, exactly
as the JavaScript split with a capture group does. -/
def jsSplitTermCapture (script : List Char) : List (List Char) :=
  goSent script [] [] []

/-- Model of the reduce on lines 29 to 35 of the source: every
even-indexed element (a text fragment) whose trim is non-empty is
joined with the following captured separator, if any, and pushed
trimmed. -/
def collectSentences : List (List Char) → List (List Char)
  | [] => []
  | [t] => if (trimChars t).isEmpty then [] else [trimChars t]
  | t :: sep :: rest =>
    (if (trimChars t).isEmpty then [] else [trimChars (t ++ sep)]) ++ collectSentences rest

/-- Scanner state machine for sentence.split on the non-capturing
pattern of a comma followed by one or more whitespace characters
(line 42 of the source).  pending records a comma waiting for
whitespace; inSep records that a separator has been confirmed and its
trailing whitespace run is being consumed. -/
def goComma : List Char → List Char → Bool → Bool → List (List Char)
  | [], tok, pending, inSep =>
    if inSep then [tok.reverse, []]
    else if pending then [(',' :: tok).reverse]
    else [tok.reverse]
  | c :: rest, tok, pending, inSep =>
    if inSep then
      if isWSChar c then goComma rest tok false true
      else if c == ',' then tok.reverse :: goComma rest [] true false
      else tok.reverse :: goComma rest [c] false false
    else if pending then
      if isWSChar c then goComma rest tok false true
      else if c == ',' then goComma rest (',' :: tok) true false
      else goComma rest (c :: ',' :: tok) false false
    else
      if c == ',' then goComma rest tok true false
      else goComma rest (c :: tok) false false

/-- Model of sentence.split on the comma-plus-whitespace pattern. -/
def splitCommaWS (sentence : List Char) : List (List Char) :=
  goComma sentence [] false false

/-- Model of the forEach on lines 43 to 49 of the source: every part
except the last (the index check idx less than parts.length - 1) gets
a comma re-appended. -/
def appendCommas : List (List Char) → List (List Char)
  | [] => []
  | [p] => [p]
  | p :: rest => (p ++ [',']) :: appendCommas rest

/-- Handling of one overlong sentence (more than 100 characters):
split on comma-plus-whitespace and re-append commas to all parts but
the last. -/
def splitLongSentence (sentence : List Char) : List (List Char) :=
  appendCommas (splitCommaWS sentence)

/-- Model of splitIntoSentences (lines 25 to 56 of the source). -/
def splitIntoSentences (script : List Char) : List (List Char) :=
  (((collectSentences (jsSplitTermCapture script)).map
      (fun s => if 100 < s.length then splitLongSentence s else [s])).flatten).filter
    (fun s => 0 < (trimChars s).length)

/-- Truncation toward zero, the rounding used by the JavaScript
remainder operator. -/
def jsTrunc (q : ℚ) : ℤ := if 0 ≤ q then ⌊q⌋ else ⌈q⌉

/-- The JavaScript remainder operator on numbers:
x % n = x - n * trunc (x / n). -/
def jsMod (x n : ℚ) : ℚ := x - n * ((jsTrunc (x / n) : ℤ) : ℚ)

/-- Model of String(value).padStart(target, pad) for a single pad
character. -/
def padStart (s : String) (target : ℕ) (c : Char) : String :=
  String.mk (List.replicate (target - s.length) c) ++ s

/-- The hours component of formatSRTTime: Math.floor(seconds / 3600). -/
def srtHours (seconds : ℚ) : ℤ := ⌊seconds / 3600⌋

/-- The minutes component: Math.floor((seconds % 3600) / 60). -/
def srtMinutes (seconds : ℚ) : ℤ := ⌊jsMod seconds 3600 / 60⌋

/-- The seconds component: Math.floor(seconds % 60). -/
def srtSecs (seconds : ℚ) : ℤ := ⌊jsMod seconds 60⌋

/-- The milliseconds component: Math.floor((seconds % 1) * 1000). -/
def srtMillis (seconds : ℚ) : ℤ := ⌊jsMod seconds 1 * 1000⌋

/-- Model of formatSRTTime (lines 13 to 20 of the source). -/
def formatSRTTime (seconds : ℚ) : String :=
  padStart (toString (srtHours seconds)) 2 '0' ++ ":" ++
  padStart (toString (srtMinutes seconds)) 2 '0' ++ ":" ++
  padStart (toString (srtSecs seconds)) 2 '0' ++ "," ++
  padStart (toString (srtMillis seconds)) 3 '0'

/-- The options record of generateSRT with its default field values
(lines 74 to 86 of the source). -/
structure SRTOptions where
  charsPerSecond : ℚ := 5
  minDuration : ℚ := 2
  maxDuration : ℚ := 8
  gapBetweenSubtitles : ℚ := 3 / 10

/-- The options value used when generateSRT is called without
options. -/
def defaultOptions : SRTOptions := {}

/-- Model of estimateReadingTime (lines 61 to 67 of the source). -/
def estimateReadingTime (text : List Char) : ℚ :=
  max 2 (min 8 ((text.length : ℚ) / 5))

/-- The duration computed for one sentence inside the generateSRT loop
(lines 94 to 98 of the source). -/
def segmentDuration (o : SRTOptions) (sentence : List Char) : ℚ :=
  max o.minDuration (min o.maxDuration ((sentence.length : ℚ) / o.charsPerSecond))

/-- One subtitle segment.  The source record stores index, the two
formatted time strings and the trimmed text; the fields startSec and
endSec additionally record the numeric values of the running clock
from which the strings are formatted, so that the timing invariants
can be stated numerically. -/
structure SubtitleSegment where
  index : ℕ
  startSec : ℚ
  endSec : ℚ
  startTime : String
  endTime : String
  text : List Char

/-- Model of the forEach loop of generateSRT (lines 91 to 111 of the
source): index is the 0-based loop counter and currentTime the running
clock, advanced by duration plus gap after each segment. -/
def buildSegments (o : SRTOptions) : List (List Char) → ℕ → ℚ → List SubtitleSegment
  | [], _, _ => []
  | sentence :: rest, index, currentTime =>
    { index := index + 1,
      startSec := currentTime,
      endSec := currentTime + segmentDuration o sentence,
      startTime := formatSRTTime currentTime,
      endTime := formatSRTTime (currentTime + segmentDuration o sentence),
      text := trimChars sentence } ::
    buildSegments o rest (index + 1) (currentTime + (segmentDuration o sentence + o.gapBetweenSubtitles))

/-- The template literal for one segment (line 116 of the source). -/
def srtBlock (seg : SubtitleSegment) : String :=
  toString seg.index ++ "\n" ++ seg.startTime ++ " --> " ++ seg.endTime ++ "\n" ++
  String.mk seg.text ++ "\n"

/-- Model of Array.prototype.join with a separator. -/
def jsJoin (sep : String) : List String → String
  | [] => ""
  | [x] => x
  | x :: xs => x ++ sep ++ jsJoin sep xs

/-- The serialization step of generateSRT (lines 114 to 118 of the
source): map each segment to its block and join with a newline. -/
def serializeSegments (segments : List SubtitleSegment) : String :=
  jsJoin ("\n") (segments.map srtBlock)

/-- Model of generateSRT (lines 72 to 119 of the source). -/
def generateSRT (script : List Char) (options : SRTOptions) : String :=
  serializeSegments (buildSegments options (splitIntoSentences script) 0 0)

/-- Modelled from the words of the spec: clamp(value, lo, hi). -/
def clampSpec (value lo hi : ℚ) : ℚ := min hi (max lo value)

/-- Modelled from the words of the spec: the duration contract
duration(fragment, config) as clamp of length over rate between the
two bounds. -/
def durationSpec (fragment : List Char) (o : SRTOptions) : ℚ :=
  clampSpec ((fragment.length : ℚ) / o.charsPerSecond) o.minDuration o.maxDuration

/-- Modelled from the words of the spec: one serialized block without
its terminating newline. -/
def specBlock (seg : SubtitleSegment) : String :=
  toString seg.index ++ "\n" ++ seg.startTime ++ " --> " ++ seg.endTime ++ "\n" ++
  String.mk seg.text

/-- Modelled from the words of the spec: the serialized output is the
concatenation of the blocks in order, each terminated by a newline,
consecutive blocks separated by exactly one blank line, and the empty
sequence gives the empty string. -/
def specSerialize : List SubtitleSegment → String
  | [] => ""
  | [seg] => specBlock seg ++ "\n"
  | seg :: rest => specBlock seg ++ "\n\n" ++ specSerialize rest

/-- Modelled from the words of the spec: hours = floor(seconds / 3600). -/
def specHours (q : ℚ) : ℤ := ⌊q / 3600⌋

/-- Modelled from the words of the spec:
minutes = floor((seconds mod 3600) / 60). -/
def specMinutes (q : ℚ) : ℤ := ⌊(q - 3600 * ((⌊q / 3600⌋ : ℤ) : ℚ)) / 60⌋

/-- Modelled from the words of the spec: secs = floor(seconds mod 60). -/
def specSecs (q : ℚ) : ℤ := ⌊q - 60 * ((⌊q / 60⌋ : ℤ) : ℚ)⌋

/-- Modelled from the words of the spec:
millis = floor((seconds mod 1) * 1000). -/
def specMillis (q : ℚ) : ℤ := ⌊(q - ((⌊q⌋ : ℤ) : ℚ)) * 1000⌋

/-- The round-trip input of the spec. -/
def korScript : List Char := "안녕하세요. 반갑습니다.".data

/-- A configuration with a zero narration rate. -/
def zeroRateOptions : SRTOptions := { charsPerSecond := 0 }

/-- A 102-character fragment with one comma-plus-whitespace boundary
whose text itself ends in a comma. -/
def exLongTrailingComma : List Char :=
  List.replicate 50 'a' ++ [','] ++ [' '] ++ List.replicate 49 'b' ++ [',']

/-- A 112-character fragment with two comma-separated clauses and no
trailing comma. -/
def exLongTwoClauses : List Char :=
  List.replicate 60 'a' ++ [','] ++ [' '] ++ List.replicate 50 'b'

/-- Rounding of a rational to the nearest integer with ties to even,
the rounding used by IEEE-754 arithmetic. -/
def roundTiesEven (q : ℚ) : ℤ :=
  if Int.fract q < 1/2 then ⌊q⌋
  else if 1/2 < Int.fract q then ⌊q⌋ + 1
  else if 2 ∣ ⌊q⌋ then ⌊q⌋ else ⌊q⌋ + 1

/-- Fuel-driven binary-exponent search: scales a positive rational
into the interval [1, 2) and reports the power of two removed. -/
def expAux : ℕ → ℚ → ℤ → ℤ
  | 0, _, e => e
  | fuel + 1, q, e =>
    if q < 1 then expAux fuel (q * 2) (e - 1)
    else if 2 ≤ q then expAux fuel (q / 2) (e + 1)
    else e

/-- The binary exponent of a positive rational: the unique e with
2 ^ e ≤ q < 2 ^ (e + 1), for exponents reachable within the IEEE-754
binary64 range. -/
def exp2 (q : ℚ) : ℤ := expAux 64 q 0

/-- Rounding of an exact rational to the nearest IEEE-754 binary64
value (round to nearest, ties to even): the significand is the
53-bit rounding of q scaled by the binary exponent.  This models the
normal range of the format, which covers every value the source can
produce on the inputs considered; overflow and subnormals are not
modelled.  JavaScript numbers are binary64, and every arithmetic
operator rounds its exact result this way. -/
def fl (q : ℚ) : ℚ :=
  if q = 0 then 0
  else if 0 < q then
    ((roundTiesEven (q * (2:ℚ) ^ (52 - exp2 q)) : ℤ) : ℚ) * (2:ℚ) ^ (exp2 q - 52)
  else
    -(((roundTiesEven (-q * (2:ℚ) ^ (52 - exp2 (-q))) : ℤ) : ℚ) * (2:ℚ) ^ (exp2 (-q) - 52))

/-- The hours component of formatSRTTime under binary64 semantics:
the division seconds / 3600 rounds before Math.floor is applied. -/
def srtHoursD (seconds : ℚ) : ℤ := ⌊fl (seconds / 3600)⌋

/-- The minutes component under binary64 semantics: the remainder
operator on doubles is exact, the division by 60 rounds. -/
def srtMinutesD (seconds : ℚ) : ℤ := ⌊fl (jsMod seconds 3600 / 60)⌋

/-- The seconds component under binary64 semantics: the remainder is
exact and Math.floor is exact, so no rounding occurs. -/
def srtSecsD (seconds : ℚ) : ℤ := ⌊jsMod seconds 60⌋

/-- The milliseconds component under binary64 semantics: the remainder
is exact, the multiplication by 1000 rounds. -/
def srtMillisD (seconds : ℚ) : ℤ := ⌊fl (jsMod seconds 1 * 1000)⌋

/-- Model of formatSRTTime under binary64 semantics. -/
def formatSRTTimeD (seconds : ℚ) : String :=
  padStart (toString (srtHoursD seconds)) 2 '0' ++ ":" ++
  padStart (toString (srtMinutesD seconds)) 2 '0' ++ ":" ++
  padStart (toString (srtSecsD seconds)) 2 '0' ++ "," ++
  padStart (toString (srtMillisD seconds)) 3 '0'

/-- The per-sentence duration under binary64 semantics: the division
charCount / charsPerSecond rounds; Math.min and Math.max are exact. -/
def segmentDurationD (o : SRTOptions) (sentence : List Char) : ℚ :=
  max o.minDuration (min o.maxDuration (fl ((sentence.length : ℚ) / o.charsPerSecond)))

/-- Model of the generateSRT loop under binary64 semantics: each
addition rounds, so the clock advances by
fl (currentTime + fl (duration + gap)), exactly as the source
statement currentTime += duration + gapBetweenSubtitles executes on
doubles. -/
def buildSegmentsD (o : SRTOptions) : List (List Char) → ℕ → ℚ → List SubtitleSegment
  | [], _, _ => []
  | sentence :: rest, index, currentTime =>
    { index := index + 1,
      startSec := currentTime,
      endSec := fl (currentTime + segmentDurationD o sentence),
      startTime := formatSRTTimeD currentTime,
      endTime := formatSRTTimeD (fl (currentTime + segmentDurationD o sentence)),
      text := trimChars sentence } ::
    buildSegmentsD o rest (index + 1)
      (fl (currentTime + fl (segmentDurationD o sentence + o.gapBetweenSubtitles)))

/-- The default options under binary64 semantics: the source literal
0.3 is itself the binary64 value nearest 3/10; the other defaults are
exactly representable. -/
def defaultOptionsD : SRTOptions :=
  { gapBetweenSubtitles := fl (3 / 10) }

/-- Helper: one block of the serialization is the spec block with its
terminating newline. -/
theorem srtBlock_eq_specBlock (seg : SubtitleSegment) :
    srtBlock seg = specBlock seg ++ "\n" := rfl

/-- Helper: the join-based serialization agrees with the blank-line
separated spec serialization. -/
theorem serializeSegments_eq_spec (segments : List SubtitleSegment) :
    serializeSegments segments = specSerialize segments := by
  induction segments with
  | nil => rfl
  | cons a rest ih =>
    cases rest with
    | nil => rfl
    | cons b r2 =>
      have h1 : serializeSegments (a :: b :: r2) =
          srtBlock a ++ "\n" ++ serializeSegments (b :: r2) := rfl
      have h2 : ("\n\n" : String) = "\n" ++ "\n" := rfl
      have h3 : specSerialize (a :: b :: r2) =
          specBlock a ++ "\n\n" ++ specSerialize (b :: r2) := rfl
      rw [h1, ih, srtBlock_eq_specBlock, h3, h2]
      simp [String.append_assoc]

/-- Helper: the index, text and length maps of the segment builder. -/
theorem buildSegments_maps (o : SRTOptions) :
    ∀ (ss : List (List Char)) (idx : ℕ) (t : ℚ),
      (buildSegments o ss idx t).map SubtitleSegment.index = List.range' (idx + 1) ss.length ∧
      (buildSegments o ss idx t).map SubtitleSegment.text = ss.map trimChars ∧
      (buildSegments o ss idx t).length = ss.length := by
  intro ss
  induction ss with
  | nil => intro idx t; refine ⟨rfl, rfl, rfl⟩
  | cons s rest ih =>
    intro idx t
    obtain ⟨h1, h2, h3⟩ := ih (idx + 1) (t + (segmentDuration o s + o.gapBetweenSubtitles))
    refine ⟨?_, ?_, ?_⟩
    · rw [buildSegments, List.map_cons, h1, List.length_cons, List.range'_succ]
    · rw [buildSegments, List.map_cons, h2, List.map_cons]
    · rw [buildSegments, List.length_cons, h3, List.length_cons]

/-- C9: the empty input produces an empty fragment sequence and an
empty serialized string; in the embedding both functions are total
functions of their input, hence deterministic and never failing. -/
theorem empty_input_empty_output :
    splitIntoSentences [] = [] ∧ ∀ o : SRTOptions, generateSRT [] o = "" :=
  ⟨rfl, fun _ => rfl⟩

/-- C10: the standalone helper estimateReadingTime computes exactly the
clamped duration used inside generateSRT under the default
configuration, namely max(2, min(8, length / 5)). -/
theorem estimateReadingTime_eq_default_duration (text : List Char) :
    estimateReadingTime text = segmentDuration defaultOptions text ∧
    estimateReadingTime text = max 2 (min 8 ((text.length : ℚ) / 5)) :=
  ⟨rfl, rfl⟩

/-- C3: generateSRT produces one entry per fragment of
splitIntoSentences, in order (entry texts are the trimmed fragments),
and the sequence numbers are exactly 1..N with no gaps. -/
theorem generateSRT_sequence_numbers (o : SRTOptions) (script : List Char) :
    (buildSegments o (splitIntoSentences script) 0 0).map SubtitleSegment.index =
      List.range' 1 (splitIntoSentences script).length ∧
    (buildSegments o (splitIntoSentences script) 0 0).map SubtitleSegment.text =
      (splitIntoSentences script).map trimChars ∧
    (buildSegments o (splitIntoSentences script) 0 0).length =
      (splitIntoSentences script).length :=
  buildSegments_maps o (splitIntoSentences script) 0 0

/-- C4: the serialized output of generateSRT is the concatenation of
one block per entry, blocks of the form number, time range, text, each
terminated by a newline and separated from the next by exactly one
blank line; the empty entry sequence serializes to the empty string. -/
theorem generateSRT_serialization_format :
    (∀ segments : List SubtitleSegment, serializeSegments segments = specSerialize segments) ∧
    (∀ (script : List Char) (o : SRTOptions),
      generateSRT script o = specSerialize (buildSegments o (splitIntoSentences script) 0 0)) ∧
    serializeSegments [] = "" :=
  ⟨serializeSegments_eq_spec,
   fun script o => serializeSegments_eq_spec (buildSegments o (splitIntoSentences script) 0 0),
   rfl⟩

/-- C2: the duration assigned to a fragment is the clamp of
length / charsPerSecond between minDuration and maxDuration; it is
never below minDuration nor above maxDuration, and a zero-length
fragment gets exactly minDuration. -/
theorem segmentDuration_clamped (o : SRTOptions) (fragment : List Char)
    (_hcps : 0 < o.charsPerSecond) (hmin : 0 < o.minDuration)
    (hmm : o.minDuration ≤ o.maxDuration) :
    segmentDuration o fragment = durationSpec fragment o ∧
    o.minDuration ≤ segmentDuration o fragment ∧
    segmentDuration o fragment ≤ o.maxDuration ∧
    (fragment.length = 0 → segmentDuration o fragment = o.minDuration) := by
  refine ⟨?_, le_max_left _ _, max_le hmm (min_le_left _ _), ?_⟩
  · rw [segmentDuration, durationSpec, clampSpec, max_min_distrib_left,
      max_eq_right hmm]
  · intro h0
    have hx : ((fragment.length : ℚ) / o.charsPerSecond) = 0 := by
      rw [h0]; simp
    have hhi : (0 : ℚ) ≤ o.maxDuration := le_trans hmin.le hmm
    rw [segmentDuration, hx, min_eq_right hhi, max_eq_left hmin.le]

/-- C2 witness: the bounds hold for the default configuration on the
round-trip input. -/
theorem segmentDuration_clamped_witness :
    0 < defaultOptions.charsPerSecond ∧ 0 < defaultOptions.minDuration ∧
    defaultOptions.minDuration ≤ defaultOptions.maxDuration ∧
    (segmentDuration defaultOptions korScript = durationSpec korScript defaultOptions ∧
     defaultOptions.minDuration ≤ segmentDuration defaultOptions korScript ∧
     segmentDuration defaultOptions korScript ≤ defaultOptions.maxDuration ∧
     (korScript.length = 0 → segmentDuration defaultOptions korScript = defaultOptions.minDuration)) :=
  ⟨by norm_num [defaultOptions], by norm_num [defaultOptions], by norm_num [defaultOptions],
   segmentDuration_clamped defaultOptions korScript (by norm_num [defaultOptions])
     (by norm_num [defaultOptions]) (by norm_num [defaultOptions])⟩

/-- Helper: every segment of the builder ends exactly one segment
duration after it starts. -/
theorem buildSegments_endSec (o : SRTOptions) :
    ∀ (ss : List (List Char)) (idx : ℕ) (t : ℚ),
      ∀ seg ∈ buildSegments o ss idx t,
        ∃ s ∈ ss, seg.endSec = seg.startSec + segmentDuration o s := by
  intro ss
  induction ss with
  | nil => intro idx t seg hseg; simp [buildSegments] at hseg
  | cons s rest ih =>
    intro idx t seg hseg
    rw [buildSegments] at hseg
    rcases List.mem_cons.mp hseg with h | h
    · exact ⟨s, List.mem_cons_self s rest, by rw [h]⟩
    · obtain ⟨s2, hs2, he⟩ := ih (idx + 1) (t + (segmentDuration o s + o.gapBetweenSubtitles)) seg h
      exact ⟨s2, List.mem_cons_of_mem s hs2, he⟩

/-- Helper: consecutive segments of the builder are separated by the
configured gap, so the next start is at or after the previous end,
with equality exactly for a zero gap. -/
theorem buildSegments_chain (o : SRTOptions) (hgap : 0 ≤ o.gapBetweenSubtitles) :
    ∀ (ss : List (List Char)) (idx : ℕ) (t : ℚ),
      List.Chain'
        (fun a b => a.endSec ≤ b.startSec ∧ (b.startSec = a.endSec ↔ o.gapBetweenSubtitles = 0))
        (buildSegments o ss idx t) := by
  intro ss
  induction ss with
  | nil => intro idx t; rw [buildSegments]; exact List.chain'_nil
  | cons s rest ih =>
    intro idx t
    rw [buildSegments]
    apply List.chain'_cons'.mpr
    refine ⟨?_, ih (idx + 1) (t + (segmentDuration o s + o.gapBetweenSubtitles))⟩
    intro b hb
    cases rest with
    | nil => rw [buildSegments] at hb; simp at hb
    | cons s2 r2 =>
      rw [buildSegments] at hb
      simp only [List.head?_cons, Option.mem_def, Option.some.injEq] at hb
      subst hb
      constructor
      · show t + segmentDuration o s ≤ t + (segmentDuration o s + o.gapBetweenSubtitles)
        linarith
      · show t + (segmentDuration o s + o.gapBetweenSubtitles) = t + segmentDuration o s ↔
          o.gapBetweenSubtitles = 0
        constructor
        · intro h; linarith
        · intro h; rw [h]; ring

/-- C1: with a positive minimum duration and a non-negative gap, every
entry built by generateSRT ends strictly after it starts, and each
next entry starts at or after the previous end, with equality exactly
when the gap is zero. -/
theorem generateSRT_entries_ordered (o : SRTOptions) (script : List Char)
    (hmin : 0 < o.minDuration) (hgap : 0 ≤ o.gapBetweenSubtitles) :
    (∀ seg ∈ buildSegments o (splitIntoSentences script) 0 0, seg.startSec < seg.endSec) ∧
    List.Chain'
      (fun a b => a.endSec ≤ b.startSec ∧ (b.startSec = a.endSec ↔ o.gapBetweenSubtitles = 0))
      (buildSegments o (splitIntoSentences script) 0 0) := by
  constructor
  · intro seg hseg
    obtain ⟨s, _, he⟩ := buildSegments_endSec o (splitIntoSentences script) 0 0 seg hseg
    have hd : o.minDuration ≤ segmentDuration o s := le_max_left _ _
    rw [he]
    linarith
  · exact buildSegments_chain o hgap (splitIntoSentences script) 0 0

/-- C1 witness: the ordering invariants at the default configuration
on the round-trip input. -/
theorem generateSRT_entries_ordered_witness :
    0 < defaultOptions.minDuration ∧ 0 ≤ defaultOptions.gapBetweenSubtitles ∧
    ((∀ seg ∈ buildSegments defaultOptions (splitIntoSentences korScript) 0 0,
        seg.startSec < seg.endSec) ∧
      List.Chain'
        (fun a b => a.endSec ≤ b.startSec ∧
          (b.startSec = a.endSec ↔ defaultOptions.gapBetweenSubtitles = 0))
        (buildSegments defaultOptions (splitIntoSentences korScript) 0 0)) :=
  ⟨by norm_num [defaultOptions], by norm_num [defaultOptions],
   generateSRT_entries_ordered defaultOptions korScript (by norm_num [defaultOptions])
     (by norm_num [defaultOptions])⟩

/-- Helper: appendCommas re-appends a comma to every part except the
last, which is passed through unchanged. -/
theorem appendCommas_eq (l : List (List Char)) :
    appendCommas l = l.dropLast.map (fun p => p ++ [',']) ++ (l.getLast?).toList := by
  induction l with
  | nil => rfl
  | cons p rest ih =>
    cases rest with
    | nil => rfl
    | cons q r2 =>
      have h1 : appendCommas (p :: q :: r2) = (p ++ [',']) :: appendCommas (q :: r2) := rfl
      have h2 : (p :: q :: r2).dropLast = p :: (q :: r2).dropLast := rfl
      rw [h1, ih, h2, List.map_cons, List.getLast?_cons_cons, List.cons_append]

/-- C5 counterexample: a 102-character fragment whose text ends in a
comma.  Its last sub-fragment after the overlong split retains that
trailing comma, so the last sub-fragment does not always end
comma-free. -/
theorem splitLong_trailing_comma_cex :
    100 < exLongTrailingComma.length ∧
    splitIntoSentences exLongTrailingComma =
      [List.replicate 50 'a' ++ [','], List.replicate 49 'b' ++ [',']] ∧
    (List.replicate 49 'b' ++ [',']).getLast? = some ',' :=
  ⟨by decide, by decide, by decide⟩

/-- C5 (amended): an overlong fragment is split at every
comma-plus-whitespace boundary; every sub-fragment except the last has
a comma re-appended, and the last gets no comma appended (though it
keeps a comma the original text already ended with); in particular a
fragment with exactly two comma-separated clauses becomes two
fragments, the first ending with the re-appended comma and the second
passed through unchanged. -/
theorem splitLongSentence_comma_split (s : List Char) (_h : 100 < s.length) :
    splitLongSentence s =
      (splitCommaWS s).dropLast.map (fun p => p ++ [',']) ++
        ((splitCommaWS s).getLast?).toList ∧
    (∀ p1 p2, splitCommaWS s = [p1, p2] → splitLongSentence s = [p1 ++ [','], p2]) := by
  constructor
  · exact appendCommas_eq (splitCommaWS s)
  · intro p1 p2 hp
    rw [splitLongSentence, hp]
    rfl

/-- C5 witness: the two-clause boundary instance, a 112-character
fragment with one comma boundary and no trailing comma. -/
theorem splitLongSentence_comma_split_witness :
    100 < exLongTwoClauses.length ∧
    (splitLongSentence exLongTwoClauses =
      (splitCommaWS exLongTwoClauses).dropLast.map (fun p => p ++ [',']) ++
        ((splitCommaWS exLongTwoClauses).getLast?).toList ∧
     (∀ p1 p2, splitCommaWS exLongTwoClauses = [p1, p2] →
        splitLongSentence exLongTwoClauses = [p1 ++ [','], p2])) :=
  ⟨by decide, splitLongSentence_comma_split exLongTwoClauses (by decide)⟩

/-- Helper: every serialized block has positive length. -/
theorem srtBlock_length_pos (seg : SubtitleSegment) : 0 < (srtBlock seg).length := by
  rw [srtBlock]
  simp only [String.length_append]
  have h1 : ("\n" : String).length = 1 := rfl
  omega

/-- Helper: the serialization of a non-empty segment list has positive
length. -/
theorem serializeSegments_cons_length_pos (a : SubtitleSegment) (rest : List SubtitleSegment) :
    0 < (serializeSegments (a :: rest)).length := by
  cases rest with
  | nil => exact srtBlock_length_pos a
  | cons b r2 =>
    have h1 : serializeSegments (a :: b :: r2) =
        srtBlock a ++ "\n" ++ serializeSegments (b :: r2) := rfl
    rw [h1]
    have h2 := srtBlock_length_pos a
    simp [String.length_append]
    omega

/-- Helper: generateSRT returns a non-empty string whenever the input
splits into at least one fragment. -/
theorem generateSRT_length_pos (o : SRTOptions) (script : List Char)
    (h : splitIntoSentences script ≠ []) : 0 < (generateSRT script o).length := by
  rw [generateSRT]
  rcases hs : splitIntoSentences script with _ | ⟨s, ss⟩
  · exact absurd hs h
  · rw [buildSegments]
    exact serializeSegments_cons_length_pos _ _

/-- C8 (the code lacks the validation the spec requires): generateSRT
has no error path at all; called with a zero charsPerSecond on the
round-trip input it silently returns a non-empty SRT string instead of
rejecting the invocation. -/
theorem generateSRT_zero_rate_not_rejected :
    zeroRateOptions.charsPerSecond = 0 ∧
    0 < (generateSRT korScript zeroRateOptions).length :=
  ⟨rfl, generateSRT_length_pos zeroRateOptions korScript (by decide)⟩

/-- Helper: truncation agrees with floor on non-negative arguments. -/
theorem jsTrunc_of_nonneg (q : ℚ) (h : 0 ≤ q) : jsTrunc q = ⌊q⌋ := by
  rw [jsTrunc, if_pos h]

/-- Helper: on non-negative arguments with a positive modulus the
JavaScript remainder is the scaled fractional part of the quotient. -/
theorem jsMod_eq_fract (x n : ℚ) (hx : 0 ≤ x) (hn : 0 < n) :
    jsMod x n = n * Int.fract (x / n) := by
  have hne : n ≠ 0 := hn.ne'
  rw [jsMod, jsTrunc_of_nonneg _ (div_nonneg hx hn.le), Int.fract]
  field_simp

/-- Helper: range of the JavaScript remainder for non-negative
arguments. -/
theorem jsMod_nonneg_lt (x n : ℚ) (hx : 0 ≤ x) (hn : 0 < n) :
    0 ≤ jsMod x n ∧ jsMod x n < n := by
  rw [jsMod_eq_fract x n hx hn]
  refine ⟨mul_nonneg hn.le (Int.fract_nonneg _), ?_⟩
  calc n * Int.fract (x / n) < n * 1 := by
        exact mul_lt_mul_of_pos_left (Int.fract_lt_one _) hn
    _ = n := mul_one n

/-- Helper: the hours component equals the spec formula. -/
theorem srtHours_eq_spec (q : ℚ) : srtHours q = specHours q := rfl

/-- Helper: the minutes component equals the spec formula on
non-negative input. -/
theorem srtMinutes_eq_spec (q : ℚ) (h : 0 ≤ q) : srtMinutes q = specMinutes q := by
  rw [srtMinutes, specMinutes, jsMod, jsTrunc_of_nonneg _ (div_nonneg h (by norm_num))]

/-- Helper: the seconds component equals the spec formula on
non-negative input. -/
theorem srtSecs_eq_spec (q : ℚ) (h : 0 ≤ q) : srtSecs q = specSecs q := by
  rw [srtSecs, specSecs, jsMod, jsTrunc_of_nonneg _ (div_nonneg h (by norm_num))]

/-- Helper: the milliseconds component equals the spec formula on
non-negative input. -/
theorem srtMillis_eq_spec (q : ℚ) (h : 0 ≤ q) : srtMillis q = specMillis q := by
  rw [srtMillis, specMillis, jsMod, div_one, jsTrunc_of_nonneg _ h, one_mul]

/-- Helper: the minutes component lies between 0 and 59. -/
theorem srtMinutes_bounds (q : ℚ) (h : 0 ≤ q) : 0 ≤ srtMinutes q ∧ srtMinutes q < 60 := by
  obtain ⟨h0, h1⟩ := jsMod_nonneg_lt q 3600 h (by norm_num)
  rw [srtMinutes]
  refine ⟨Int.floor_nonneg.mpr (div_nonneg h0 (by norm_num)), ?_⟩
  apply Int.floor_lt.mpr
  push_cast
  rw [div_lt_iff (by norm_num : (0:ℚ) < 60)]
  linarith

/-- Helper: the seconds component lies between 0 and 59. -/
theorem srtSecs_bounds (q : ℚ) (h : 0 ≤ q) : 0 ≤ srtSecs q ∧ srtSecs q < 60 := by
  obtain ⟨h0, h1⟩ := jsMod_nonneg_lt q 60 h (by norm_num)
  rw [srtSecs]
  refine ⟨Int.floor_nonneg.mpr h0, ?_⟩
  apply Int.floor_lt.mpr
  push_cast
  linarith

/-- Helper: the milliseconds component lies between 0 and 999. -/
theorem srtMillis_bounds (q : ℚ) (h : 0 ≤ q) : 0 ≤ srtMillis q ∧ srtMillis q < 1000 := by
  obtain ⟨h0, h1⟩ := jsMod_nonneg_lt q 1 h (by norm_num)
  rw [srtMillis]
  refine ⟨Int.floor_nonneg.mpr (by positivity), ?_⟩
  apply Int.floor_lt.mpr
  push_cast
  nlinarith

/-- Helper: decimal rendering of a natural number below 100, padded to
two characters, has exactly two characters. -/
theorem padStart_two_digits : ∀ n : ℕ, n < 100 →
    (padStart (toString ((n : ℤ))) 2 '0').length = 2 := by decide

set_option maxRecDepth 4000 in
/-- Helper: decimal rendering of a natural number below 1000, padded
to three characters, has exactly three characters. -/
theorem padStart_three_digits : ∀ n : ℕ, n < 1000 →
    (padStart (toString ((n : ℤ))) 3 '0').length = 3 := by decide

/-- Helper: two-character padding for integers in [0, 100). -/
theorem padStart_toString_len_two (i : ℤ) (h0 : 0 ≤ i) (h1 : i < 100) :
    (padStart (toString i) 2 '0').length = 2 := by
  obtain ⟨n, rfl⟩ := Int.eq_ofNat_of_zero_le h0
  exact padStart_two_digits n (by exact_mod_cast h1)

/-- Helper: three-character padding for integers in [0, 1000). -/
theorem padStart_toString_len_three (i : ℤ) (h0 : 0 ≤ i) (h1 : i < 1000) :
    (padStart (toString i) 3 '0').length = 3 := by
  obtain ⟨n, rfl⟩ := Int.eq_ofNat_of_zero_le h0
  exact padStart_three_digits n (by exact_mod_cast h1)

/-- Helper: below 100 hours the formatted time string has exactly 12
characters. -/
theorem formatSRTTime_length_eq (q : ℚ) (h : 0 ≤ q) (hh : srtHours q < 100) :
    (formatSRTTime q).length = 12 := by
  obtain ⟨hm0, hm1⟩ := srtMinutes_bounds q h
  obtain ⟨hs0, hs1⟩ := srtSecs_bounds q h
  obtain ⟨hms0, hms1⟩ := srtMillis_bounds q h
  have hh0 : 0 ≤ srtHours q := Int.floor_nonneg.mpr (div_nonneg h (by norm_num))
  rw [formatSRTTime]
  simp only [String.length_append]
  rw [padStart_toString_len_two _ hh0 hh,
    padStart_toString_len_two _ hm0 (lt_trans hm1 (by norm_num)),
    padStart_toString_len_two _ hs0 (lt_trans hs1 (by norm_num)),
    padStart_toString_len_three _ hms0 hms1]
  rfl

/-- C7 counterexample: at 100 hours (360000 seconds, a non-negative
input) the formatted string is 100:00:00,000 and has 13 characters,
not 12, since the hours field is not truncated. -/
theorem formatSRTTime_hundred_hours_cex :
    (0:ℚ) ≤ 360000 ∧ (formatSRTTime 360000).length = 13 := by
  refine ⟨by norm_num, ?_⟩
  have h1 : srtHours 360000 = 100 := by
    rw [srtHours]; norm_num
  have h2 : srtMinutes 360000 = 0 := by
    rw [srtMinutes, jsMod, jsTrunc_of_nonneg _ (by norm_num)]
    norm_num
  have h3 : srtSecs 360000 = 0 := by
    rw [srtSecs, jsMod, jsTrunc_of_nonneg _ (by norm_num)]
    norm_num
  have h4 : srtMillis 360000 = 0 := by
    rw [srtMillis, jsMod, jsTrunc_of_nonneg _ (by norm_num)]
    norm_num
  rw [formatSRTTime, h1, h2, h3, h4]
  decide

/-- C7 (amended): for every non-negative number of seconds the
formatted string consists of the zero-padded components given by the
spec formulas, separated by colons and a comma, with no upper bound on
the hours value; it has exactly 12 characters whenever the input is
below 100 hours (for 100 hours or more the hours field needs more than
two digits and the string is longer). -/
theorem formatSRTTime_fields (q : ℚ) (h : 0 ≤ q) :
    formatSRTTime q =
      padStart (toString (specHours q)) 2 '0' ++ ":" ++
      padStart (toString (specMinutes q)) 2 '0' ++ ":" ++
      padStart (toString (specSecs q)) 2 '0' ++ "," ++
      padStart (toString (specMillis q)) 3 '0' ∧
    (q < 360000 → (formatSRTTime q).length = 12) := by
  constructor
  · rw [formatSRTTime, srtHours_eq_spec, srtMinutes_eq_spec q h, srtSecs_eq_spec q h,
      srtMillis_eq_spec q h]
  · intro hq
    apply formatSRTTime_length_eq q h
    have h100 : q / 3600 < 100 := by
      rw [div_lt_iff (by norm_num : (0:ℚ) < 3600)]
      linarith
    rw [srtHours]
    apply Int.floor_lt.mpr
    push_cast
    linarith

/-- C7 witness: the field decomposition and the 12-character length at
3661.5 seconds. -/
theorem formatSRTTime_fields_witness :
    (0:ℚ) ≤ 36615 / 10 ∧
    (formatSRTTime (36615 / 10) =
      padStart (toString (specHours (36615 / 10))) 2 '0' ++ ":" ++
      padStart (toString (specMinutes (36615 / 10))) 2 '0' ++ ":" ++
      padStart (toString (specSecs (36615 / 10))) 2 '0' ++ "," ++
      padStart (toString (specMillis (36615 / 10))) 3 '0' ∧
     ((36615 / 10 : ℚ) < 360000 → (formatSRTTime (36615 / 10)).length = 12)) :=
  ⟨by norm_num, formatSRTTime_fields (36615 / 10) (by norm_num)⟩


/-- Helper: the exponent search is correct: if q lies in the binade
of e and e is reachable within the fuel, the search returns e added
to the accumulator. -/
theorem expAux_spec : ∀ (fuel : ℕ) (q : ℚ) (acc e : ℤ), e.natAbs ≤ fuel →
    (2:ℚ) ^ e ≤ q → q < 2 * (2:ℚ) ^ e → expAux fuel q acc = acc + e := by
  intro fuel
  induction fuel with
  | zero =>
    intro q acc e hfe h1 h2
    have he0 : e = 0 := by omega
    subst he0
    simp [expAux]
  | succ n ih =>
    intro q acc e hfe h1 h2
    rcases lt_trichotomy e 0 with he | he | he
    · have hpow : (2:ℚ) ^ e ≤ (2:ℚ) ^ (-1 : ℤ) :=
        zpow_le_zpow_right₀ (by norm_num) (by omega)
      have hval : (2:ℚ) * (2:ℚ) ^ (-1 : ℤ) = 1 := by norm_num
      have hq1 : q < 1 := by nlinarith
      rw [expAux, if_pos hq1]
      have hstep : expAux n (q * 2) (acc - 1) = (acc - 1) + (e + 1) := by
        apply ih
        · omega
        · rw [zpow_add_one₀ (by norm_num : (2:ℚ) ≠ 0)]
          linarith
        · rw [zpow_add_one₀ (by norm_num : (2:ℚ) ≠ 0)]
          linarith
      rw [hstep]
      ring
    · subst he
      rw [zpow_zero] at h1 h2
      have hq1 : ¬ q < 1 := not_lt.mpr h1
      have hq2 : ¬ 2 ≤ q := not_le.mpr (by linarith)
      rw [expAux, if_neg hq1, if_neg hq2, add_zero]
    · have hpow : (2:ℚ) ^ (1 : ℤ) ≤ (2:ℚ) ^ e :=
        zpow_le_zpow_right₀ (by norm_num) (by omega)
      have hval : (2:ℚ) ^ (1 : ℤ) = 2 := by norm_num
      have hq2 : 2 ≤ q := by linarith
      have hq1 : ¬ q < 1 := not_lt.mpr (by linarith)
      rw [expAux, if_neg hq1, if_pos hq2]
      have hstep : expAux n (q / 2) (acc + 1) = (acc + 1) + (e - 1) := by
        apply ih
        · omega
        · rw [zpow_sub_one₀ (by norm_num : (2:ℚ) ≠ 0)]
          linarith
        · rw [zpow_sub_one₀ (by norm_num : (2:ℚ) ≠ 0)]
          linarith
      rw [hstep]
      ring

/-- Helper: the binary exponent of q is e whenever q lies in the
binade of e, for the exponent range of binary64. -/
theorem exp2_unique (q : ℚ) (e : ℤ) (hfe : e.natAbs ≤ 64)
    (h1 : (2:ℚ) ^ e ≤ q) (h2 : q < 2 * (2:ℚ) ^ e) : exp2 q = e := by
  rw [exp2, expAux_spec 64 q 0 e hfe h1 h2, zero_add]

/-- Helper: evaluation form of the binary64 rounding for a positive
input with known exponent and rounded significand. -/
theorem fl_eval (q : ℚ) (e m : ℤ) (hq : 0 < q) (he : exp2 q = e)
    (hm : roundTiesEven (q * (2:ℚ) ^ (52 - e)) = m) :
    fl q = (m : ℚ) * (2:ℚ) ^ (e - 52) := by
  rw [fl, if_neg hq.ne', if_pos hq, he, hm]

/-- Helper: zero is exactly representable. -/
theorem fl_zero : fl 0 = 0 := by rw [fl, if_pos rfl]

/-- Helper: the binary64 value of the source literal 0.3, which is
slightly below 3/10. -/
theorem fl_three_tenths : fl (3 / 10) = 5404319552844595 / 18014398509481984 := by
  rw [fl_eval (3 / 10) (-2) 5404319552844595 (by norm_num)
    (exp2_unique _ _ (by norm_num) (by norm_num) (by norm_num))
    (by norm_num [roundTiesEven, Int.fract])]
  norm_num

/-- Helper: the binary64 value of the quotient 6 / 5. -/
theorem fl_six_fifths : fl (6 / 5) = 5404319552844595 / 4503599627370496 := by
  rw [fl_eval (6 / 5) 0 5404319552844595 (by norm_num)
    (exp2_unique _ _ (by norm_num) (by norm_num) (by norm_num))
    (by norm_num [roundTiesEven, Int.fract])]
  norm_num

/-- Helper: two is exactly representable. -/
theorem fl_two : fl 2 = 2 := by
  rw [fl_eval 2 1 4503599627370496 (by norm_num)
    (exp2_unique _ _ (by norm_num) (by norm_num) (by norm_num))
    (by norm_num [roundTiesEven, Int.fract])]
  norm_num

/-- Helper: the binary64 sum of 2 and the double 0.3, the clock value
for entry 2; it is the double just below 2.3. -/
theorem fl_two_plus_gap :
    fl (2 + 5404319552844595 / 18014398509481984) =
      2589569785738035 / 1125899906842624 := by
  rw [fl_eval (2 + 5404319552844595 / 18014398509481984) 1 5179139571476070 (by norm_num)
    (exp2_unique _ _ (by norm_num) (by norm_num) (by norm_num))
    (by norm_num [roundTiesEven, Int.fract])]
  norm_num

/-- Helper: the clock value for entry 2 is exactly representable, so
adding it to zero returns it unchanged. -/
theorem fl_clock2 :
    fl (2589569785738035 / 1125899906842624) =
      2589569785738035 / 1125899906842624 := by
  rw [fl_eval (2589569785738035 / 1125899906842624) 1 5179139571476070 (by norm_num)
    (exp2_unique _ _ (by norm_num) (by norm_num) (by norm_num))
    (by norm_num [roundTiesEven, Int.fract])]
  norm_num

/-- Helper: the binary64 formatter at zero seconds. -/
theorem formatSRTTimeD_at_zero : formatSRTTimeD 0 = "00:00:00,000" := by
  have h1 : srtHoursD 0 = 0 := by
    rw [srtHoursD, (by norm_num : (0:ℚ) / 3600 = 0), fl_zero]
    norm_num
  have h2 : srtMinutesD 0 = 0 := by
    have hm : jsMod 0 3600 = 0 := by
      rw [jsMod, jsTrunc_of_nonneg _ (by norm_num)]
      norm_num
    rw [srtMinutesD, hm, (by norm_num : (0:ℚ) / 60 = 0), fl_zero]
    norm_num
  have h3 : srtSecsD 0 = 0 := by
    have hm : jsMod 0 60 = 0 := by
      rw [jsMod, jsTrunc_of_nonneg _ (by norm_num)]
      norm_num
    rw [srtSecsD, hm]
    norm_num
  have h4 : srtMillisD 0 = 0 := by
    have hm : jsMod 0 1 = 0 := by
      rw [jsMod, jsTrunc_of_nonneg _ (by norm_num)]
      norm_num
    rw [srtMillisD, hm, (by norm_num : (0:ℚ) * 1000 = 0), fl_zero]
    norm_num
  rw [formatSRTTimeD, h1, h2, h3, h4]
  decide

/-- Helper: the binary64 formatter at two seconds. -/
theorem formatSRTTimeD_at_two : formatSRTTimeD 2 = "00:00:02,000" := by
  have h1 : srtHoursD 2 = 0 := by
    rw [srtHoursD,
      fl_eval (2 / 3600) (-11) 5124095576030431 (by norm_num)
        (exp2_unique _ _ (by norm_num) (by norm_num) (by norm_num))
        (by norm_num [roundTiesEven, Int.fract])]
    norm_num
  have h2 : srtMinutesD 2 = 0 := by
    have hm : jsMod 2 3600 = 2 := by
      rw [jsMod, jsTrunc_of_nonneg _ (by norm_num)]
      norm_num
    rw [srtMinutesD, hm,
      fl_eval (2 / 60) (-5) 4803839602528529 (by norm_num)
        (exp2_unique _ _ (by norm_num) (by norm_num) (by norm_num))
        (by norm_num [roundTiesEven, Int.fract])]
    norm_num
  have h3 : srtSecsD 2 = 2 := by
    have hm : jsMod 2 60 = 2 := by
      rw [jsMod, jsTrunc_of_nonneg _ (by norm_num)]
      norm_num
    rw [srtSecsD, hm]
    norm_num
  have h4 : srtMillisD 2 = 0 := by
    have hm : jsMod 2 1 = 0 := by
      rw [jsMod, jsTrunc_of_nonneg _ (by norm_num)]
      norm_num
    rw [srtMillisD, hm, (by norm_num : (0:ℚ) * 1000 = 0), fl_zero]
    norm_num
  rw [formatSRTTimeD, h1, h2, h3, h4]
  decide

/-- Helper: the binary64 formatter at the entry 2 clock value, the
double just below 2.3: the milliseconds field is 299 because the
fractional part is below 0.3 and scaling by 1000 stays below 300. -/
theorem formatSRTTimeD_at_clock2 :
    formatSRTTimeD (2589569785738035 / 1125899906842624) = "00:00:02,299" := by
  have h1 : srtHoursD (2589569785738035 / 1125899906842624) = 0 := by
    rw [srtHoursD,
      fl_eval (2589569785738035 / 1125899906842624 / 3600) (-11) 5892709912434995
        (by norm_num)
        (exp2_unique _ _ (by norm_num) (by norm_num) (by norm_num))
        (by norm_num [roundTiesEven, Int.fract])]
    norm_num
  have h2 : srtMinutesD (2589569785738035 / 1125899906842624) = 0 := by
    have hm : jsMod (2589569785738035 / 1125899906842624) 3600 =
        2589569785738035 / 1125899906842624 := by
      rw [jsMod, jsTrunc_of_nonneg _ (by norm_num)]
      norm_num
    rw [srtMinutesD, hm,
      fl_eval (2589569785738035 / 1125899906842624 / 60) (-5) 5524415542907808
        (by norm_num)
        (exp2_unique _ _ (by norm_num) (by norm_num) (by norm_num))
        (by norm_num [roundTiesEven, Int.fract])]
    norm_num
  have h3 : srtSecsD (2589569785738035 / 1125899906842624) = 2 := by
    have hm : jsMod (2589569785738035 / 1125899906842624) 60 =
        2589569785738035 / 1125899906842624 := by
      rw [jsMod, jsTrunc_of_nonneg _ (by norm_num)]
      norm_num
    rw [srtSecsD, hm]
    norm_num
  have h4 : srtMillisD (2589569785738035 / 1125899906842624) = 299 := by
    have hm : jsMod (2589569785738035 / 1125899906842624) 1 =
        337769972052787 / 1125899906842624 := by
      rw [jsMod, jsTrunc_of_nonneg _ (by norm_num)]
      norm_num
    rw [srtMillisD, hm,
      fl_eval (337769972052787 / 1125899906842624 * 1000) 8 5277655813324797
        (by norm_num)
        (exp2_unique _ _ (by norm_num) (by norm_num) (by norm_num))
        (by norm_num [roundTiesEven, Int.fract])]
    norm_num
  rw [formatSRTTimeD, h1, h2, h3, h4]
  decide

/-- Helper: under binary64 semantics a six-character fragment clamps
to the two-second minimum duration with the default configuration. -/
theorem segmentDurationD_default_six (s : List Char) (h6 : s.length = 6) :
    segmentDurationD defaultOptionsD s = 2 := by
  have hc : defaultOptionsD.charsPerSecond = 5 := rfl
  have hmin : defaultOptionsD.minDuration = 2 := rfl
  have hmax : defaultOptionsD.maxDuration = 8 := rfl
  rw [segmentDurationD, h6, hc, hmin, hmax]
  rw [(by norm_num : ((6:ℕ):ℚ) / 5 = 6 / 5), fl_six_fifths]
  norm_num [min_def, max_def]

/-- Helper: full evaluation of the round-trip entries under binary64
semantics: two entries, starts 00:00:00,000 and 00:00:02,299, first
end 00:00:02,000. -/
theorem buildSegmentsD_korScript_eval :
    (buildSegmentsD defaultOptionsD (splitIntoSentences korScript) 0 0).length = 2 ∧
    (buildSegmentsD defaultOptionsD (splitIntoSentences korScript) 0 0).map
      SubtitleSegment.startTime = ["00:00:00,000", "00:00:02,299"] ∧
    ((buildSegmentsD defaultOptionsD (splitIntoSentences korScript) 0 0).map
      SubtitleSegment.endTime).head? = some ("00:00:02,000") := by
  have hsplit : splitIntoSentences korScript =
      ["안녕하세요.".data, "반갑습니다.".data] := by decide
  have hd1 : segmentDurationD defaultOptionsD ("안녕하세요.".data) = 2 :=
    segmentDurationD_default_six _ rfl
  have hgap : defaultOptionsD.gapBetweenSubtitles = fl (3 / 10) := rfl
  rw [hsplit]
  simp only [buildSegmentsD]
  rw [hd1, hgap, fl_three_tenths, fl_two_plus_gap]
  rw [(by norm_num : (0:ℚ) + 2 = 2), fl_two]
  rw [(by norm_num : (0:ℚ) + 2589569785738035 / 1125899906842624 =
      2589569785738035 / 1125899906842624), fl_clock2]
  rw [formatSRTTimeD_at_zero, formatSRTTimeD_at_two, formatSRTTimeD_at_clock2]
  simp

/-- C6 counterexample: under the IEEE-754 binary64 arithmetic the
source executes, the round-trip input with the default configuration
yields entries whose start times are 00:00:00,000 and 00:00:02,299:
the accumulated clock 2 + 0.3 is the double just below 2.3, whose
milliseconds field floors to 299, not the 300 the claim asserts. -/
theorem generateSRT_round_trip_ieee_cex :
    (buildSegmentsD defaultOptionsD (splitIntoSentences korScript) 0 0).length = 2 ∧
    (buildSegmentsD defaultOptionsD (splitIntoSentences korScript) 0 0).map
      SubtitleSegment.startTime = ["00:00:00,000", "00:00:02,299"] :=
  ⟨buildSegmentsD_korScript_eval.1, buildSegmentsD_korScript_eval.2.1⟩

/-- C6 (amended): the round-trip input with the default configuration
yields exactly two entries; entry 1 runs from 00:00:00,000 to
00:00:02,000, and entry 2 starts at 00:00:02,299 under the binary64
arithmetic of the source (exact real arithmetic would give
00:00:02,300). -/
theorem generateSRT_round_trip_ieee :
    (buildSegmentsD defaultOptionsD (splitIntoSentences korScript) 0 0).length = 2 ∧
    (buildSegmentsD defaultOptionsD (splitIntoSentences korScript) 0 0).map
      SubtitleSegment.startTime = ["00:00:00,000", "00:00:02,299"] ∧
    ((buildSegmentsD defaultOptionsD (splitIntoSentences korScript) 0 0).map
      SubtitleSegment.endTime).head? = some ("00:00:02,000") :=
  buildSegmentsD_korScript_eval
